import Mathlib

/-!
Verification of the persistent external-worker evaluation service of the MHLib.jl
tuning demos, embedded shallowly from the Python sources:

* `src/tuning/smac/julia_server.py` — a module that, at import time, spawns one Julia
  subprocess with its stdin/stdout captured as pipes, performs a one-line bootstrap
  handshake, and exposes a wrapper `f(config, instance, seed=0)` that writes one
  request line to the subprocess and reads one reply line back, parsed as a float.
* `src/tuning/tuning2.py` — a demo evaluation function using `random.random()`,
  registered with a scenario declaring `deterministic=False`.
* `src/Tuning/smacdemo-with-julia-server.py` — the driver that dispatches
  `julia_server.f` to a pool of single-threaded worker processes.

Pipes are modelled by an explicit process state (`Proc`): the lines written so far, the
reply lines still available on the subprocess's stdout (an empty list models
end-of-stream, i.e. a child that exited), whether the stdin pipe is still writable, and
a trace of I/O events. Python exceptions are modelled with `Except`; an `Except.error`
that no surrounding code catches models an exception propagating to the caller.
-/

namespace JuliaServerModel

/-- Python exception kinds relevant to the embedded code, together with the error
classes named by the specification (`protocolError`, `workerStartError`,
`workerCrashedError`).  The embedded code only ever produces `valueError` (from
`float(...)` on an unparsable string) and `brokenPipeError` (from a write to a pipe
whose reader is gone); the spec-named constructors exist so that statements about
their absence can be made. -/
inductive PyExc where
  | valueError (arg : String)
  | brokenPipeError
  | protocolError
  | workerStartError
  | workerCrashedError
deriving DecidableEq, BEq

/-- Decidable equality of `Except` results, for evaluating the embedded code on
concrete inputs. -/
instance {ε α : Type} [DecidableEq ε] [DecidableEq α] : DecidableEq (Except ε α)
  | Except.ok x, Except.ok y =>
    if h : x = y then isTrue (by rw [h]) else isFalse (fun hc => h (Except.ok.inj hc))
  | Except.error e, Except.error e' =>
    if h : e = e' then isTrue (by rw [h])
    else isFalse (fun hc => h (Except.error.inj hc))
  | Except.ok _, Except.error _ => isFalse (fun hc => Except.noConfusion hc)
  | Except.error _, Except.ok _ => isFalse (fun hc => Except.noConfusion hc)

/-- I/O events on a worker subprocess, recorded as a trace. -/
inductive IOEvent where
  | spawn
  | write (line : String)
  | flush
  | readLine
  | terminate
deriving DecidableEq, BEq

/-- State of one worker subprocess and its pipe pair.  `stdinOpen = false` models a
child whose stdin pipe is broken (writes raise `BrokenPipeError`); `pending` holds the
reply lines available on the child's stdout, with `[]` modelling end-of-stream (the
child exited), where a `readline` returns the empty string as Python's does. -/
structure Proc where
  stdinOpen : Bool
  sent : List String
  pending : List String
  events : List IOEvent
deriving DecidableEq

/-- `p.stdin.write(line)`: records the write attempt; succeeds and appends to the lines
sent iff the pipe is open, otherwise raises `BrokenPipeError`. -/
def pyWrite (p : Proc) (line : String) : Except PyExc Unit × Proc :=
  let p1 : Proc := { p with events := p.events ++ [IOEvent.write line] }
  if p1.stdinOpen then (Except.ok (), { p1 with sent := p1.sent ++ [line] })
  else (Except.error PyExc.brokenPipeError, p1)

/-- `p.stdin.flush()`. -/
def pyFlush (p : Proc) : Proc :=
  { p with events := p.events ++ [IOEvent.flush] }

/-- `p.stdout.readline()`: blocks for the next full line; at end-of-stream (child
exited) it returns the empty string, exactly as Python's `readline` does. -/
def pyReadline (p : Proc) : String × Proc :=
  match p.pending with
  | [] => ("", { p with events := p.events ++ [IOEvent.readLine] })
  | l :: rest => (l, { p with pending := rest, events := p.events ++ [IOEvent.readLine] })

/-! ### Python value rendering

`julia_server.f` builds its request line with an f-string, interpolating `instance`,
`seed`, `config["x"]`, `config["y"]` and `config["z"]` through Python's `str`.  The
values drawn from the configuration spaces of the demos are integers, floats from small
ranges (0.1–10.0, where Python's `str` prints plain decimal notation), and category
strings; we model them as integers, scaled decimals and strings, with the rendering
`str` gives them. -/

/-- The reversed base-10 digit list of `n` (empty for `0`). -/
def natDigitsRev (n : Nat) : List Nat :=
  if h : n = 0 then [] else (n % 10) :: natDigitsRev (n / 10)
termination_by n
decreasing_by exact Nat.div_lt_self (Nat.pos_of_ne_zero h) (by decide)

/-- The character for a single decimal digit. -/
def digitChar (d : Nat) : Char := Char.ofNat (48 + d)

/-- Python's `str` on a nonnegative integer: plain decimal notation. -/
def natDec (n : Nat) : String :=
  if n = 0 then "0" else String.mk (((natDigitsRev n).reverse).map digitChar)

/-- Python's `str` on an integer: plain decimal notation with a leading `-` sign. -/
def intDec (i : Int) : String :=
  if i < 0 then "-" ++ natDec i.natAbs else natDec i.natAbs

/-- Python's `str` on the scaled decimal `m / 10^e` (the rendering of the demo-range
floats): plain decimal notation with `e` fractional digits, e.g. `2.5` for `(25, 1)`. -/
def decRender (m : Int) (e : Nat) : String :=
  if e = 0 then intDec m
  else
    let sign := if m < 0 then "-" else ""
    let a := m.natAbs
    let fs := ((natDigitsRev (a % 10 ^ e)).reverse).map digitChar
    sign ++ natDec (a / 10 ^ e) ++ "." ++
      String.mk (List.replicate (e - fs.length) '0' ++ fs)

/-- A Python value as it can occur in a `Configuration` of the demos: an integer, a
decimal number `m / 10^e`, or a string. -/
inductive PyVal where
  | int (n : Int)
  | dec (m : Int) (e : Nat)
  | str (s : String)
deriving DecidableEq

/-- What Python's f-string interpolation `{v}` produces for a `PyVal`. -/
def pyStr : PyVal → String
  | PyVal.int n => intDec n
  | PyVal.dec m e => decRender m e
  | PyVal.str s => s

/-- Whether a `PyVal` is numeric (an integer or a decimal). -/
def isNumeric : PyVal → Bool
  | PyVal.int _ => true
  | PyVal.dec _ _ => true
  | PyVal.str _ => false

/-- A resolved configuration as read by `julia_server.f`: the values of the three
parameters `"x"`, `"y"` and `"z"` (read-only to the core). -/
structure Configuration where
  x : PyVal
  y : PyVal
  z : PyVal
deriving DecidableEq

/-! ### Python `float()` parsing

Embeds Python's `float` builtin on byte strings: strip ASCII whitespace, an optional
sign, then either an `inf`/`infinity`/`nan` keyword (case-insensitive) or a decimal
mantissa (`digits`, `digits.digits`, `.digits` or `digits.`) with an optional
`e`/`E`-exponent; anything else raises `ValueError`.  Finite values are represented
exactly as rationals. -/

/-- A Python float value: finite (represented exactly), infinite or NaN. -/
inductive PyFloat where
  | finite (q : ℚ)
  | inf (neg : Bool)
  | nan
deriving DecidableEq

/-- Whitespace characters stripped by Python's `float`. -/
def isPyWs (c : Char) : Bool :=
  c = ' ' || c = '\t' || c = '\n' || c = '\r' || c = '\x0b' || c = '\x0c'

/-- Strip leading and trailing whitespace. -/
def pyStripChars (cs : List Char) : List Char :=
  ((cs.dropWhile isPyWs).reverse.dropWhile isPyWs).reverse

/-- Split a leading run of decimal digits off a character list. -/
def takeDigits : List Char → List Char × List Char
  | [] => ([], [])
  | c :: cs =>
    if c.isDigit then
      let p := takeDigits cs
      (c :: p.1, p.2)
    else ([], c :: cs)

/-- Numeric value of a list of decimal digit characters. -/
def digitsToNat (ds : List Char) : Nat :=
  ds.foldl (fun a c => 10 * a + (c.toNat - 48)) 0

/-- Consume an optional sign; returns whether the value is negated. -/
def parseSign : List Char → Bool × List Char
  | '+' :: cs => (false, cs)
  | '-' :: cs => (true, cs)
  | cs => (false, cs)

/-- Case-insensitive comparison against a keyword. -/
def lowerEq (cs : List Char) (kw : List Char) : Bool :=
  cs.map Char.toLower = kw

/-- Parse the decimal mantissa: digits with an optional fractional part, or a bare
fractional part; fails if no digit is present at all. -/
def parseMantissa (cs : List Char) : Option (ℚ × List Char) :=
  let p := takeDigits cs
  match p.2 with
  | '.' :: r2 =>
    let q := takeDigits r2
    if p.1.isEmpty && q.1.isEmpty then none
    else some ((digitsToNat (p.1 ++ q.1) : ℚ) / (10 : ℚ) ^ q.1.length, q.2)
  | _ => if p.1.isEmpty then none else some ((digitsToNat p.1 : ℚ), p.2)

/-- Parse an optional `e`/`E` exponent; an `e` not followed by digits fails. -/
def parseExpPart (cs : List Char) : Option (Int × List Char) :=
  match cs with
  | [] => some (0, [])
  | c :: r1 =>
    if c = 'e' || c = 'E' then
      let sp := parseSign r1
      let dp := takeDigits sp.2
      if dp.1.isEmpty then none
      else some ((if sp.1 then -(digitsToNat dp.1 : Int) else (digitsToNat dp.1 : Int)),
        dp.2)
    else some (0, cs)

/-- Python's `float(s)`: `some` value on success, `none` when it raises `ValueError`. -/
def pyFloatParse (s : String) : Option PyFloat :=
  let cs := pyStripChars s.toList
  let sp := parseSign cs
  if lowerEq sp.2 ['i', 'n', 'f'] || lowerEq sp.2 ['i', 'n', 'f', 'i', 'n', 'i', 't', 'y']
  then some (PyFloat.inf sp.1)
  else if lowerEq sp.2 ['n', 'a', 'n'] then some PyFloat.nan
  else
    match parseMantissa sp.2 with
    | none => none
    | some (m, r1) =>
      match parseExpPart r1 with
      | none => none
      | some (e, r2) =>
        if r2.isEmpty then
          some (PyFloat.finite ((if sp.1 then -m else m) * (10 : ℚ) ^ e))
        else none

/-! ### `src/tuning/smac/julia_server.py` -/

namespace JuliaServer

/-- The bootstrap command sent at module initialization (`julia_server.py` line 12):
`include("../julia-function-to-tune.jl")` followed by a newline. -/
def bootstrapLine : String := "include(\"../julia-function-to-tune.jl\")\n"

/-- The request line built by `f` (`julia_server.py` line 20):
`f'f(\"{instance}\", {seed}, {config["x"]}, {config["y"]}, \"{config["z"]}\")\n'`. -/
def cmdLine (config : Configuration) (inst : String) (seed : Int) : String :=
  "f(\"" ++ inst ++ "\", " ++ intDec seed ++ ", " ++ pyStr config.x ++ ", " ++
    pyStr config.y ++ ", \"" ++ pyStr config.z ++ "\")\n"

/-- `subprocess.Popen(["julia"], stdin=PIPE, stdout=PIPE)` (`julia_server.py` line 11):
the freshly spawned child, parameterized by whether its stdin pipe is writable and by
the reply lines its stdout will deliver (`[]` models a child that exits before
replying, so reads hit end-of-stream). -/
def popenJulia (alive : Bool) (output : List String) : Proc :=
  { stdinOpen := alive, sent := [], pending := output, events := [IOEvent.spawn] }

/-- Module initialization of `julia_server.py` (lines 11–15): spawn the subprocess,
write the bootstrap line, flush, and read one reply line, which is only printed and
otherwise dropped.  Returns the reply line together with the module-global `julia`
process state; an uncaught exception (broken pipe) makes the import fail. -/
def moduleInit (alive : Bool) (output : List String) : Except PyExc (String × Proc) :=
  let julia := popenJulia alive output
  match pyWrite julia bootstrapLine with
  | (Except.error e, _) => Except.error e
  | (Except.ok _, p1) =>
    let p2 := pyFlush p1
    let rp := pyReadline p2
    Except.ok (rp.1, rp.2)

/-- `julia_server.f` (lines 19–27): build the command line, write it to the
module-global subprocess's stdin, flush, read one reply line, and parse it with
`float`.  The `print` calls of the source write to the Python process's own stdout,
not to the pipe pair, and are not modelled.  No exception is caught: a broken-pipe
write or an unparsable reply propagates to the caller. -/
def f (julia : Proc) (config : Configuration) (inst : String) (seed : Int := 0) :
    Except PyExc PyFloat × Proc :=
  let cmd := cmdLine config inst seed
  match pyWrite julia cmd with
  | (Except.error e, p1) => (Except.error e, p1)
  | (Except.ok _, p1) =>
    let p2 := pyFlush p1
    let rp := pyReadline p2
    ((match pyFloatParse rp.1 with
      | none => Except.error (PyExc.valueError rp.1)
      | some v => Except.ok v), rp.2)

/-- A worker process that already completed its handshake, with the given reply lines
still to come on its stdout. -/
def readyProc (output : List String) : Proc :=
  { stdinOpen := true, sent := [], pending := output, events := [] }

/-- Modelled from the spec: the Julia-side evaluation routine loaded from
`julia-function-to-tune.jl`, a file the repository sources under `src/` do not
contain.  Per the spec (§6) the evaluation function is deterministic given
(configuration, instance, seed); accordingly the engine is modelled as a pure function
`engine` from the request line it reads to the single reply line it writes, and
`fAgainst engine` runs `julia_server.f` against a worker whose stdout carries exactly
the engine's reply to the encoded request. -/
def fAgainst (engine : String → String) (config : Configuration) (inst : String)
    (seed : Int) : Except PyExc PyFloat :=
  (f (readyProc [engine (cmdLine config inst seed)]) config inst seed).1

/-- The result `julia_server.f` yields as a pure function of the engine and of
(configuration, instance, seed): the engine's reply to the encoded request, parsed by
`float`, with a `ValueError` when parsing fails. -/
def engineResult (engine : String → String) (config : Configuration) (inst : String)
    (seed : Int) : Except PyExc PyFloat :=
  match pyFloatParse (engine (cmdLine config inst seed)) with
  | none => Except.error (PyExc.valueError (engine (cmdLine config inst seed)))
  | some v => Except.ok v

end JuliaServer

/-! ### Scenarios and the `tuning2.py` evaluation function -/

/-- The slice of the optimizer's `Scenario` object the claims refer to. -/
structure Scenario where
  deterministic : Bool
  n_trials : Nat
deriving DecidableEq

namespace Tuning2

/-- `Scenario(config_space, deterministic=False, ..., n_trials=200)`
(`src/tuning/tuning2.py` line 13). -/
def scenario : Scenario := { deterministic := false, n_trials := 200 }

/-- `tuning2.f` (lines 17–22): `res = x - y + random.random()`.  The draw of
`random.random()` is made explicit as the argument `rand`. -/
def f (x y : Int) (_inst : String) (_seed : Int) (rand : ℚ) : ℚ :=
  (x : ℚ) - (y : ℚ) + rand

end Tuning2

namespace SmacDemoServer

/-- `Scenario(config_space, deterministic=True, n_trials=100)`
(`src/Tuning/smacdemo-with-julia-server.py` line 32). -/
def scenario : Scenario := { deterministic := true, n_trials := 100 }

end SmacDemoServer

/-! ### Concurrency model: a pool of single-threaded worker processes

Variant 3 of the demos (`smacdemo-with-julia-server.py` lines 34–39, `tuning.py` lines
88–97) hands `julia_server.f` to a `LocalCluster` of distributed worker processes with
`threads_per_worker=1`.  Each worker process imports `julia_server` itself and so owns
its own Julia subprocess and pipe pair exclusively; within one process the single
thread issues its evaluation calls strictly one after the other.  Concurrency
therefore exists only across processes, never on one worker's pipe pair. -/

/-- One evaluation request as dispatched by the optimizer. -/
structure Request where
  config : Configuration
  inst : String
  seed : Int

/-- The traffic classes on a worker's pipe pair: a request-line write and a
reply-line read. -/
inductive WireEvent where
  | wr
  | rd
deriving DecidableEq, BEq

/-- Project an I/O event to its wire traffic class, if any. -/
def wireOf : IOEvent → Option WireEvent
  | IOEvent.write _ => some WireEvent.wr
  | IOEvent.readLine => some WireEvent.rd
  | _ => none

/-- The wire traffic of an event trace. -/
def wireEvents (es : List IOEvent) : List WireEvent := es.filterMap wireOf

/-- Whether a wire event is a request-line write. -/
def isWr : WireEvent → Bool
  | WireEvent.wr => true
  | WireEvent.rd => false

/-- Whether a wire event is a reply-line read. -/
def isRd : WireEvent → Bool
  | WireEvent.wr => false
  | WireEvent.rd => true

/-- Number of request-line writes in a wire trace. -/
def wrCount (ws : List WireEvent) : Nat := ws.countP isWr

/-- Number of reply-line reads in a wire trace. -/
def rdCount (ws : List WireEvent) : Nat := ws.countP isRd

/-- Whether an event spawns a subprocess. -/
def isSpawn : IOEvent → Bool
  | IOEvent.spawn => true
  | _ => false

/-- Whether an event terminates or closes a subprocess. -/
def isTerminate : IOEvent → Bool
  | IOEvent.terminate => true
  | _ => false

/-- Whether an event is a write attempt on a worker's stdin. -/
def isWriteEv : IOEvent → Bool
  | IOEvent.write _ => true
  | _ => false

/-- Whether an event is a readline on a worker's stdout. -/
def isReadEv : IOEvent → Bool
  | IOEvent.readLine => true
  | _ => false

/-- Number of subprocess spawns in a trace. -/
def spawnCount (es : List IOEvent) : Nat := es.countP isSpawn

/-- Number of subprocess terminations in a trace. -/
def terminateCount (es : List IOEvent) : Nat := es.countP isTerminate

/-- Number of write attempts in a trace. -/
def writeAttempts (es : List IOEvent) : Nat := es.countP isWriteEv

/-- Number of readline calls in a trace. -/
def readAttempts (es : List IOEvent) : Nat := es.countP isReadEv

/-- A single-threaded worker process (as `threads_per_worker=1` configures) evaluating
its requests strictly one after the other on its module-global Julia process; a failed
evaluation is recorded by the optimizer and the next request still runs. -/
def serialRun (p : Proc) : List Request → Proc
  | [] => p
  | r :: rs => serialRun (JuliaServer.f p r.config r.inst r.seed).2 rs

/-- The pool: worker process `i` owns Julia process `ps[i]` exclusively and runs its
own request stream `reqss[i]` on it. -/
def poolRun (ps : List Proc) (reqss : List (List Request)) : List Proc :=
  List.zipWith serialRun ps reqss

/-- Characters that may occur in plain decimal notation: digits, a sign, a decimal
point.  In particular no exponent marker, no spaces, no locale-specific separators. -/
def decimalChar (c : Char) : Bool := c.isDigit || c = '-' || c = '.'

/-- Plain decimal notation: a nonempty string of digits, sign and decimal point. -/
def plainDecimal (s : String) : Bool := !s.toList.isEmpty && s.toList.all decimalChar

/-- A sample resolved configuration from the demo configuration space
(`smacdemo-with-julia-server.py` lines 22–26): x = 2.5, y = 2, z = "opt1". -/
def cfg0 : Configuration :=
  { x := PyVal.dec 25 1, y := PyVal.int 2, z := PyVal.str "opt1" }

end JuliaServerModel

namespace JuliaServerModel

/-! ## Lemmas about the pipe primitives -/

lemma pyWrite_open (p : Proc) (line : String) (h : p.stdinOpen = true) :
    pyWrite p line =
      (Except.ok (), { p with sent := p.sent ++ [line],
                              events := p.events ++ [IOEvent.write line] }) := by
  simp [pyWrite, h]

lemma pyWrite_closed (p : Proc) (line : String) (h : p.stdinOpen = false) :
    pyWrite p line =
      (Except.error PyExc.brokenPipeError,
        { p with events := p.events ++ [IOEvent.write line] }) := by
  simp [pyWrite, h]

lemma pyReadline_eq (p : Proc) :
    pyReadline p = (p.pending.headD "",
      { p with pending := p.pending.tail,
               events := p.events ++ [IOEvent.readLine] }) := by
  cases h : p.pending <;> simp [pyReadline, h]

/-! ## Characterization of `julia_server.f` -/

/-- One call of `f` on a live worker: the command line is written (appended to the
lines sent), the pipe flushed, one reply line is consumed, and the result is the
`float`-parse of that reply — `ValueError` when it does not parse. -/
lemma f_open (p : Proc) (c : Configuration) (i : String) (s : Int)
    (h : p.stdinOpen = true) :
    JuliaServer.f p c i s =
      ((match pyFloatParse (p.pending.headD "") with
        | none => Except.error (PyExc.valueError (p.pending.headD ""))
        | some v => Except.ok v),
       { stdinOpen := true,
         sent := p.sent ++ [JuliaServer.cmdLine c i s],
         pending := p.pending.tail,
         events := p.events ++ [IOEvent.write (JuliaServer.cmdLine c i s),
           IOEvent.flush, IOEvent.readLine] }) := by
  simp only [JuliaServer.f, pyWrite_open p _ h, pyFlush, pyReadline_eq]
  simp [h, List.append_assoc]

/-- One call of `f` on a worker whose stdin pipe is broken: the write attempt raises
`BrokenPipeError`, which propagates; nothing is read. -/
lemma f_closed (p : Proc) (c : Configuration) (i : String) (s : Int)
    (h : p.stdinOpen = false) :
    JuliaServer.f p c i s =
      (Except.error PyExc.brokenPipeError,
        { p with events := p.events ++ [IOEvent.write (JuliaServer.cmdLine c i s)] }) := by
  simp only [JuliaServer.f, pyWrite_closed p _ h]

/-- `f` never produces the spec's `WorkerCrashedError`: its only failure modes are
`BrokenPipeError` and `ValueError`. -/
lemma f_no_worker_crashed (p : Proc) (c : Configuration) (i : String) (s : Int) :
    (JuliaServer.f p c i s).1 ≠ Except.error PyExc.workerCrashedError := by
  cases h : p.stdinOpen with
  | false => rw [f_closed p c i s h]; simp
  | true =>
    rw [f_open p c i s h]
    cases hp : pyFloatParse (p.pending.headD "") <;> simp [hp]

/-- `f` never produces the spec's `ProtocolError` either. -/
lemma f_no_protocol_error (p : Proc) (c : Configuration) (i : String) (s : Int) :
    (JuliaServer.f p c i s).1 ≠ Except.error PyExc.protocolError := by
  cases h : p.stdinOpen with
  | false => rw [f_closed p c i s h]; simp
  | true =>
    rw [f_open p c i s h]
    cases hp : pyFloatParse (p.pending.headD "") <;> simp [hp]

/-! ## Wire traces of sequential calls -/

lemma wireEvents_append (es es' : List IOEvent) :
    wireEvents (es ++ es') = wireEvents es ++ wireEvents es' := by
  simp [wireEvents, List.filterMap_append]

lemma f_stdinOpen_true (p : Proc) (c : Configuration) (i : String) (s : Int)
    (h : p.stdinOpen = true) : (JuliaServer.f p c i s).2.stdinOpen = true := by
  rw [f_open p c i s h]

/-- On a live worker, one `f` call adds exactly one request write followed by exactly
one reply read to the worker's wire traffic. -/
lemma f_wire_open (p : Proc) (c : Configuration) (i : String) (s : Int)
    (h : p.stdinOpen = true) :
    wireEvents (JuliaServer.f p c i s).2.events =
      wireEvents p.events ++ [WireEvent.wr, WireEvent.rd] := by
  rw [f_open p c i s h]
  simp [wireEvents_append, wireEvents, wireOf]

/-- The wire traffic of a single-threaded worker process evaluating its requests one
after the other: one strictly alternating write/read block per request. -/
lemma serialRun_wire (rs : List Request) (p : Proc) (h : p.stdinOpen = true) :
    wireEvents (serialRun p rs).events =
      wireEvents p.events ++
        (List.replicate rs.length [WireEvent.wr, WireEvent.rd]).flatten := by
  induction rs generalizing p with
  | nil => simp [serialRun]
  | cons r rs ih =>
    simp only [serialRun]
    rw [ih _ (f_stdinOpen_true p r.config r.inst r.seed h),
      f_wire_open p r.config r.inst r.seed h]
    simp [List.replicate_succ, List.append_assoc]

/-- In every prefix of a strictly alternating write/read trace, the number of request
writes exceeds the number of reply reads by at most one: at most one request is ever
in flight. -/
lemma alt_take_bound (n k : Nat) :
    wrCount ((List.replicate n [WireEvent.wr, WireEvent.rd]).flatten.take k) ≤
      rdCount ((List.replicate n [WireEvent.wr, WireEvent.rd]).flatten.take k) + 1 := by
  induction n generalizing k with
  | zero => simp [wrCount, rdCount]
  | succ n ih =>
    match k with
    | 0 => simp [wrCount, rdCount]
    | 1 =>
      simp [List.replicate_succ, wrCount, rdCount, List.countP_cons, isWr, isRd]
    | (k + 2) =>
      have hk := ih k
      simp only [List.replicate_succ, List.flatten_cons, List.cons_append,
        List.nil_append, List.take_succ_cons] at hk ⊢
      simp only [wrCount, rdCount, List.countP_cons, isWr, isRd] at hk ⊢
      omega

/-! ## Plain decimal rendering -/

lemma toList_append (a b : String) : (a ++ b).toList = a.toList ++ b.toList := by
  simp [String.toList, String.data_append]

lemma toList_mk (l : List Char) : (String.mk l).toList = l := rfl

lemma natDigitsRev_lt_ten (n : Nat) : ∀ d ∈ natDigitsRev n, d < 10 := by
  induction n using Nat.strong_induction_on with
  | _ n ih =>
    unfold natDigitsRev
    split
    · simp
    · rename_i hn
      intro d hd
      rcases List.mem_cons.mp hd with h | h
      · subst h
        exact Nat.mod_lt _ (by decide)
      · exact ih (n / 10) (Nat.div_lt_self (Nat.pos_of_ne_zero hn) (by decide)) d h

lemma digitChar_isDigit {d : Nat} (hd : d < 10) : (digitChar d).isDigit = true := by
  interval_cases d <;> decide

lemma natDec_all_digits (n : Nat) : ∀ c ∈ (natDec n).toList, c.isDigit = true := by
  unfold natDec
  split
  · intro c hc
    rw [show ("0").toList = ['0'] from rfl] at hc
    rcases List.mem_singleton.mp hc with rfl
    decide
  · intro c hc
    rw [toList_mk] at hc
    rcases List.mem_map.mp hc with ⟨d, hd, rfl⟩
    exact digitChar_isDigit (natDigitsRev_lt_ten n d (List.mem_reverse.mp hd))

lemma natDec_not_nil (n : Nat) : (natDec n).toList ≠ [] := by
  unfold natDec
  split
  · rw [show ("0").toList = ['0'] from rfl]
    simp
  · rename_i hn
    rw [toList_mk]
    unfold natDigitsRev
    simp [hn]

lemma all_decimal_natDec (n : Nat) : (natDec n).toList.all decimalChar = true := by
  rw [List.all_eq_true]
  intro c hc
  simp [decimalChar, natDec_all_digits n c hc]

lemma plainDecimal_natDec (n : Nat) : plainDecimal (natDec n) = true := by
  rw [plainDecimal, Bool.and_eq_true]
  refine ⟨?_, all_decimal_natDec n⟩
  cases hE : (natDec n).toList with
  | nil => exact absurd hE (natDec_not_nil n)
  | cons a l => rfl

lemma plainDecimal_intDec (i : Int) : plainDecimal (intDec i) = true := by
  unfold intDec
  split
  · rw [plainDecimal, Bool.and_eq_true, toList_append]
    constructor
    · simp [List.isEmpty_iff]
    · rw [List.all_append, Bool.and_eq_true]
      exact ⟨by decide, all_decimal_natDec _⟩
  · exact plainDecimal_natDec _

lemma all_decimal_replicate_zero (k : Nat) :
    (List.replicate k '0').all decimalChar = true := by
  rw [List.all_eq_true]
  intro c hc
  rcases (List.mem_replicate.mp hc).2 with rfl
  decide

lemma all_decimal_digit_map (a : Nat) :
    (((natDigitsRev a).reverse).map digitChar).all decimalChar = true := by
  rw [List.all_eq_true]
  intro c hc
  rcases List.mem_map.mp hc with ⟨d, hd, rfl⟩
  have := digitChar_isDigit (natDigitsRev_lt_ten _ d (List.mem_reverse.mp hd))
  simp [decimalChar, this]

lemma plainDecimal_decRender (m : Int) (e : Nat) :
    plainDecimal (decRender m e) = true := by
  unfold decRender
  split
  · exact plainDecimal_intDec m
  · rw [plainDecimal, Bool.and_eq_true]
    constructor
    · simp only [toList_append, toList_mk, List.isEmpty_iff, List.append_eq_nil]
      simp
    · simp only [toList_append, toList_mk, List.all_append, Bool.and_eq_true]
      refine ⟨⟨⟨?_, all_decimal_natDec _⟩, by decide⟩, all_decimal_replicate_zero _,
        all_decimal_digit_map _⟩
      split <;> decide

/-- A string in plain decimal notation contains no newline. -/
lemma no_newline_of_plainDecimal {s : String} (h : plainDecimal s = true) :
    '\n' ∉ s.toList := by
  intro hmem
  rw [plainDecimal, Bool.and_eq_true, List.all_eq_true] at h
  exact absurd (h.2 '\n' hmem) (by decide)

/-! ## Characterization of module initialization -/

/-- With a writable stdin pipe, module initialization always completes: it spawns the
child, writes the bootstrap line, flushes, and reads one line — the first pending
output line, or the empty string when the child's stdout is already at
end-of-stream. -/
lemma moduleInit_true (out : List String) :
    JuliaServer.moduleInit true out =
      Except.ok (out.headD "",
        { stdinOpen := true, sent := [JuliaServer.bootstrapLine],
          pending := out.tail,
          events := [IOEvent.spawn, IOEvent.write JuliaServer.bootstrapLine,
            IOEvent.flush, IOEvent.readLine] }) := by
  cases out <;>
    simp [JuliaServer.moduleInit, JuliaServer.popenJulia, pyWrite, pyFlush, pyReadline]

/-- With a broken stdin pipe, the bootstrap write raises `BrokenPipeError` and
importing the module fails with that exception. -/
lemma moduleInit_false (out : List String) :
    JuliaServer.moduleInit false out = Except.error PyExc.brokenPipeError := by
  simp [JuliaServer.moduleInit, JuliaServer.popenJulia, pyWrite]

/-! ## Claim theorems -/

/-- C1: at most one evaluation request is in flight on any worker's pipe pair at any
time.  Each distributed worker process imports `julia_server` itself and so owns its
Julia subprocess and pipe pair exclusively, and with `threads_per_worker=1` (as
`smacdemo-with-julia-server.py` line 36 configures) it evaluates its requests strictly
one after the other; hence in every prefix of every worker's wire traffic — for any
number of concurrently running worker processes — the request writes never get more
than one ahead of the reply reads: a second request line is never written before the
previous reply line has been read. -/
theorem one_in_flight_per_worker (ps : List Proc) (reqss : List (List Request))
    (hInit : ∀ p ∈ ps, p.stdinOpen = true ∧ p.events = [])
    (i : Nat) (hi : i < (poolRun ps reqss).length) (k : Nat) :
    wrCount ((wireEvents (((poolRun ps reqss).get ⟨i, hi⟩).events)).take k) ≤
      rdCount ((wireEvents (((poolRun ps reqss).get ⟨i, hi⟩).events)).take k) + 1 := by
  have hlen := hi
  rw [poolRun, List.length_zipWith] at hlen
  have h1 : i < ps.length := lt_of_lt_of_le hlen (min_le_left _ _)
  have h2 : i < reqss.length := lt_of_lt_of_le hlen (min_le_right _ _)
  have hget : (poolRun ps reqss).get ⟨i, hi⟩ =
      serialRun (ps.get ⟨i, h1⟩) (reqss.get ⟨i, h2⟩) := by
    simp only [poolRun, List.get_eq_getElem, List.getElem_zipWith]
  obtain ⟨hopen, hev⟩ := hInit _ (List.get_mem ps i h1)
  rw [hget, serialRun_wire _ _ hopen, hev]
  simpa [wireEvents] using alt_take_bound (reqss.get ⟨i, h2⟩).length k

/-- Witness for C1: a pool of one freshly handshaken worker evaluating one request. -/
theorem one_in_flight_per_worker_witness :
    wrCount ((wireEvents (((poolRun [JuliaServer.readyProc ["1.0\n"]]
        [[{ config := cfg0, inst := "w", seed := 0 }]]).get
        ⟨0, by decide⟩).events)).take 2) ≤
      rdCount ((wireEvents (((poolRun [JuliaServer.readyProc ["1.0\n"]]
        [[{ config := cfg0, inst := "w", seed := 0 }]]).get
        ⟨0, by decide⟩).events)).take 2) + 1 :=
  one_in_flight_per_worker [JuliaServer.readyProc ["1.0\n"]]
    [[{ config := cfg0, inst := "w", seed := 0 }]]
    (by intro p hp; rw [List.mem_singleton] at hp; subst hp; exact ⟨rfl, rfl⟩)
    0 (by decide) 2

/-- C5: worker startup performs a one-time handshake: exactly one bootstrap line, of
the form `include("<bootstrap-script-path>")` terminated by a newline, is written to
the child's stdin; then exactly one reply line is read from the child's stdout; the
reply's content is dropped (the source only prints it) and the resulting worker state
is independent of it — it serves only as a readiness signal. -/
theorem startup_handshake (r : String) (rest : List String) :
    JuliaServer.bootstrapLine =
      "include(\"" ++ "../julia-function-to-tune.jl" ++ "\")" ++ "\n"
    ∧ JuliaServer.moduleInit true (r :: rest) =
        Except.ok (r,
          { stdinOpen := true, sent := [JuliaServer.bootstrapLine], pending := rest,
            events := [IOEvent.spawn, IOEvent.write JuliaServer.bootstrapLine,
              IOEvent.flush, IOEvent.readLine] })
    ∧ (JuliaServer.moduleInit true (r :: rest)).map Prod.snd =
        (JuliaServer.moduleInit true ("" :: rest)).map Prod.snd := by
  refine ⟨rfl, ?_, ?_⟩
  · rw [moduleInit_true]
    rfl
  · rw [moduleInit_true, moduleInit_true]
    rfl

/-- C6 counterexample: worker startup does not fail with `WorkerStartError` when the
child process exits before the handshake reply.  With the child's stdout already at
end-of-stream, the handshake `readline` returns the empty string and module
initialization completes normally — no error of any kind, and no timeout exists in the
code. -/
theorem startup_timeout_counterexample :
    JuliaServer.moduleInit true [] =
      Except.ok ("",
        { stdinOpen := true, sent := [JuliaServer.bootstrapLine], pending := [],
          events := [IOEvent.spawn, IOEvent.write JuliaServer.bootstrapLine,
            IOEvent.flush, IOEvent.readLine] }) := by
  rw [moduleInit_true]
  rfl

/-- C6 (amended): startup enforces no timeout and never fails with
`WorkerStartError`: with a writable stdin pipe it always completes, even when the
child already exited (the handshake read then yields the empty string); with a broken
stdin pipe the write raises `BrokenPipeError`.  The claim's second half stands: no
timeout is enforced on evaluate calls either — `f` fails only through
`BrokenPipeError` or `ValueError`, never through `WorkerStartError`. -/
theorem startup_no_timeout_no_start_error (out : List String) (p : Proc)
    (c : Configuration) (i : String) (s : Int) :
    (∃ r q, JuliaServer.moduleInit true out = Except.ok (r, q))
    ∧ JuliaServer.moduleInit false out = Except.error PyExc.brokenPipeError
    ∧ (∀ alive, JuliaServer.moduleInit alive out ≠
        Except.error PyExc.workerStartError)
    ∧ (JuliaServer.f p c i s).1 ≠ Except.error PyExc.workerStartError := by
  refine ⟨⟨_, _, moduleInit_true out⟩, moduleInit_false out, ?_, ?_⟩
  · intro alive
    cases alive
    · rw [moduleInit_false]; simp
    · rw [moduleInit_true]; simp
  · cases h : p.stdinOpen with
    | false => rw [f_closed p c i s h]; simp
    | true =>
      rw [f_open p c i s h]
      cases hp : pyFloatParse (p.pending.headD "") <;> simp [hp]

/-- C7: every evaluation call is synchronous and consumes exactly one line in each
direction: it appends exactly one encoded request line to the lines written on the
worker's stdin, its event trace grows by exactly one write, one flush, then one
blocking read — so the single write precedes the single read and no second write is
issued before the reply is consumed — and exactly one reply line is removed from the
worker's output stream, so no reply data is buffered across calls. -/
theorem evaluate_one_line_each_direction (p : Proc) (c : Configuration) (i : String)
    (s : Int) (h : p.stdinOpen = true) :
    (JuliaServer.f p c i s).2.events =
      p.events ++ [IOEvent.write (JuliaServer.cmdLine c i s), IOEvent.flush,
        IOEvent.readLine]
    ∧ (JuliaServer.f p c i s).2.sent = p.sent ++ [JuliaServer.cmdLine c i s]
    ∧ (JuliaServer.f p c i s).2.pending = p.pending.tail := by
  rw [f_open p c i s h]
  exact ⟨rfl, rfl, rfl⟩

/-- Witness for C7: one call on a freshly handshaken worker with one reply pending. -/
theorem evaluate_one_line_each_direction_witness :
    (JuliaServer.f (JuliaServer.readyProc ["1.5\n"]) cfg0 "w" 3).2.events =
      (JuliaServer.readyProc ["1.5\n"]).events ++
        [IOEvent.write (JuliaServer.cmdLine cfg0 "w" 3), IOEvent.flush,
          IOEvent.readLine]
    ∧ (JuliaServer.f (JuliaServer.readyProc ["1.5\n"]) cfg0 "w" 3).2.sent =
        (JuliaServer.readyProc ["1.5\n"]).sent ++ [JuliaServer.cmdLine cfg0 "w" 3]
    ∧ (JuliaServer.f (JuliaServer.readyProc ["1.5\n"]) cfg0 "w" 3).2.pending =
        (JuliaServer.readyProc ["1.5\n"]).pending.tail :=
  evaluate_one_line_each_direction (JuliaServer.readyProc ["1.5\n"]) cfg0 "w" 3 rfl

/-- C10: within one importing process, the engine subprocess is spawned and
handshaken exactly once, at import time: whenever module initialization succeeds, the
spawn is the first event of the module state's trace and the only spawn in it.  And a
call to `f` never creates, restarts or closes a subprocess: it adds no spawn and no
terminate event to the trace and leaves the pipe status untouched, reusing the single
module-global process it was handed. -/
theorem single_global_worker (alive : Bool) (out : List String) (r : String) (q : Proc)
    (hok : JuliaServer.moduleInit alive out = Except.ok (r, q))
    (p : Proc) (c : Configuration) (i : String) (s : Int) :
    spawnCount q.events = 1
    ∧ q.events.head? = some IOEvent.spawn
    ∧ spawnCount (JuliaServer.f p c i s).2.events = spawnCount p.events
    ∧ terminateCount (JuliaServer.f p c i s).2.events = terminateCount p.events
    ∧ (JuliaServer.f p c i s).2.stdinOpen = p.stdinOpen := by
  have halive : alive = true := by
    cases alive
    · rw [moduleInit_false] at hok
      exact absurd hok (by simp)
    · rfl
  subst halive
  rw [moduleInit_true] at hok
  have hq := (Prod.mk.injEq _ _ _ _).mp (Except.ok.inj hok)
  rw [← hq.2]
  refine ⟨by simp [spawnCount, List.countP_cons, isSpawn], rfl, ?_, ?_, ?_⟩
  · cases h : p.stdinOpen with
    | false =>
      rw [f_closed p c i s h]
      simp [spawnCount, List.countP_append, List.countP_cons, isSpawn]
    | true =>
      rw [f_open p c i s h]
      simp [spawnCount, List.countP_append, List.countP_cons, isSpawn]
  · cases h : p.stdinOpen with
    | false =>
      rw [f_closed p c i s h]
      simp [terminateCount, List.countP_append, List.countP_cons, isTerminate]
    | true =>
      rw [f_open p c i s h]
      simp [terminateCount, List.countP_append, List.countP_cons, isTerminate]
  · cases h : p.stdinOpen with
    | false => rw [f_closed p c i s h]; exact h
    | true => rw [f_open p c i s h]

/-- Witness for C10: the module state after a successful import has exactly one
spawn. -/
theorem single_global_worker_witness :
    spawnCount [IOEvent.spawn, IOEvent.write JuliaServer.bootstrapLine, IOEvent.flush,
      IOEvent.readLine] = 1 :=
  (single_global_worker true ["ok\n"] "ok\n"
    { stdinOpen := true, sent := [JuliaServer.bootstrapLine], pending := [],
      events := [IOEvent.spawn, IOEvent.write JuliaServer.bootstrapLine, IOEvent.flush,
        IOEvent.readLine] }
    (moduleInit_true ["ok\n"]) (JuliaServer.readyProc []) cfg0 "w" 0).1

/-- C3 counterexample: a reply line that fails to parse as a float does not yield a
`ProtocolError` — `float("abc\n")` raises `ValueError`, which `f` does not catch, so
the exception propagates out of the evaluation call. -/
theorem decode_protocol_error_counterexample :
    (JuliaServer.f (JuliaServer.readyProc ["abc\n"]) cfg0 "inst" 1).1 =
      Except.error (PyExc.valueError "abc\n")
    ∧ (JuliaServer.f (JuliaServer.readyProc ["abc\n"]) cfg0 "inst" 1).1 ≠
      Except.error PyExc.protocolError := by
  decide

/-- C3 (amended): decoding parses the single reply line with `float`; a line that
fails to parse makes the call fail with an uncaught `ValueError` carrying that line —
the exception propagates to the caller, and no `ProtocolError` exists in the code. -/
theorem unparsable_reply_value_error (p : Proc) (c : Configuration) (i : String)
    (s : Int) (h : p.stdinOpen = true)
    (hbad : pyFloatParse (p.pending.headD "") = none) :
    (JuliaServer.f p c i s).1 =
      Except.error (PyExc.valueError (p.pending.headD ""))
    ∧ (JuliaServer.f p c i s).1 ≠ Except.error PyExc.protocolError := by
  rw [f_open p c i s h]
  simp only [hbad]
  exact ⟨trivial, by simp⟩

/-- Witness for C3 (amended): the unparsable reply line `"nope\n"`. -/
theorem unparsable_reply_value_error_witness :
    (JuliaServer.f (JuliaServer.readyProc ["nope\n"]) cfg0 "w" 2).1 =
      Except.error (PyExc.valueError ((JuliaServer.readyProc ["nope\n"]).pending.headD ""))
    ∧ (JuliaServer.f (JuliaServer.readyProc ["nope\n"]) cfg0 "w" 2).1 ≠
      Except.error PyExc.protocolError :=
  unparsable_reply_value_error (JuliaServer.readyProc ["nope\n"]) cfg0 "w" 2 rfl
    (by decide)

/-- C4 counterexample: a worker that exited mid-evaluation does not make the call fail
with a `WorkerCrashedError`.  With the child's stdout at end-of-stream, `readline`
returns `""` and `float(b"")` raises `ValueError`; with a broken stdin pipe, the write
raises `BrokenPipeError`.  Neither carries the handle's identity. -/
theorem evaluate_crashed_error_counterexample :
    (JuliaServer.f { stdinOpen := true, sent := [], pending := [], events := [] }
        cfg0 "inst" 1).1 = Except.error (PyExc.valueError "")
    ∧ (JuliaServer.f { stdinOpen := true, sent := [], pending := [], events := [] }
        cfg0 "inst" 1).1 ≠ Except.error PyExc.workerCrashedError
    ∧ (JuliaServer.f { stdinOpen := false, sent := [], pending := [], events := [] }
        cfg0 "inst" 1).1 = Except.error PyExc.brokenPipeError
    ∧ (JuliaServer.f { stdinOpen := false, sent := [], pending := [], events := [] }
        cfg0 "inst" 1).1 ≠ Except.error PyExc.workerCrashedError := by
  decide

/-- C4 (amended): if the write hits a broken pipe the call fails with an uncaught
`BrokenPipeError`; if the read returns end-of-stream because the child exited, the
empty reply fails `float` parsing and the call fails with an uncaught `ValueError`.
No `WorkerCrashedError` exists and no handle identity is attached.  The claim's
no-retry half stands: a call makes exactly one write attempt and at most one read. -/
theorem evaluate_failure_propagation (p : Proc) (c : Configuration) (i : String)
    (s : Int) :
    (p.stdinOpen = false →
      JuliaServer.f p c i s = (Except.error PyExc.brokenPipeError,
        { p with events := p.events ++ [IOEvent.write (JuliaServer.cmdLine c i s)] }))
    ∧ (p.stdinOpen = true → p.pending = [] →
      (JuliaServer.f p c i s).1 = Except.error (PyExc.valueError ""))
    ∧ (JuliaServer.f p c i s).1 ≠ Except.error PyExc.workerCrashedError
    ∧ writeAttempts (JuliaServer.f p c i s).2.events = writeAttempts p.events + 1
    ∧ readAttempts (JuliaServer.f p c i s).2.events ≤ readAttempts p.events + 1 := by
  refine ⟨fun h => f_closed p c i s h, fun h he => ?_, f_no_worker_crashed p c i s,
    ?_, ?_⟩
  · rw [f_open p c i s h, he]
    simp
    decide
  · cases h : p.stdinOpen with
    | false =>
      rw [f_closed p c i s h]
      simp [writeAttempts, List.countP_append, List.countP_cons, isWriteEv]
    | true =>
      rw [f_open p c i s h]
      simp [writeAttempts, List.countP_append, List.countP_cons, isWriteEv]
  · cases h : p.stdinOpen with
    | false =>
      rw [f_closed p c i s h]
      simp [readAttempts, List.countP_append, List.countP_cons, isReadEv]
    | true =>
      rw [f_open p c i s h]
      simp [readAttempts, List.countP_append, List.countP_cons, isReadEv]

/-- Witness for C4 (amended): both failure modes at concrete worker states. -/
theorem evaluate_failure_propagation_witness :
    JuliaServer.f { stdinOpen := false, sent := [], pending := [], events := [] }
        cfg0 "w" 0 =
      (Except.error PyExc.brokenPipeError,
        { ({ stdinOpen := false, sent := [], pending := [], events := [] } : Proc) with
          events := ([] : List IOEvent) ++ [IOEvent.write (JuliaServer.cmdLine cfg0 "w" 0)] })
    ∧ (JuliaServer.f (JuliaServer.readyProc []) cfg0 "w" 0).1 =
      Except.error (PyExc.valueError "") :=
  ⟨(evaluate_failure_propagation
      { stdinOpen := false, sent := [], pending := [], events := [] } cfg0 "w" 0).1 rfl,
   (evaluate_failure_propagation (JuliaServer.readyProc []) cfg0 "w" 0).2.1 rfl rfl⟩

/-- C2: the encoded per-call request is exactly the single newline-terminated line
`f("<instance>", <seed>, <x>, <y>, "<z>")`: fields ordered positionally — instance,
seed, then the parameters x, y, z in this fixed order — with the string fields
instance and z double-quoted, the numeric fields seed, x, y rendered in plain decimal
notation, and (fields being newline-free) the request is one line, terminated by the
newline. -/
theorem request_line_format (c : Configuration) (inst : String) (s : Int)
    (hx : isNumeric c.x = true) (hy : isNumeric c.y = true)
    (hinst : '\n' ∉ inst.toList) (hz : '\n' ∉ (pyStr c.z).toList) :
    JuliaServer.cmdLine c inst s =
      "f(\"" ++ inst ++ "\", " ++ intDec s ++ ", " ++ pyStr c.x ++ ", " ++ pyStr c.y
        ++ ", \"" ++ pyStr c.z ++ "\")\n"
    ∧ plainDecimal (intDec s) = true
    ∧ plainDecimal (pyStr c.x) = true
    ∧ plainDecimal (pyStr c.y) = true
    ∧ ∃ body, JuliaServer.cmdLine c inst s = body ++ "\n" ∧ '\n' ∉ body.toList := by
  have hpx : plainDecimal (pyStr c.x) = true := by
    cases hc : c.x with
    | int n => exact plainDecimal_intDec n
    | dec m e => exact plainDecimal_decRender m e
    | str t => rw [hc] at hx; simp [isNumeric] at hx
  have hpy : plainDecimal (pyStr c.y) = true := by
    cases hc : c.y with
    | int n => exact plainDecimal_intDec n
    | dec m e => exact plainDecimal_decRender m e
    | str t => rw [hc] at hy; simp [isNumeric] at hy
  refine ⟨rfl, plainDecimal_intDec s, hpx, hpy, ?_⟩
  refine ⟨"f(\"" ++ inst ++ "\", " ++ intDec s ++ ", " ++ pyStr c.x ++ ", " ++
      pyStr c.y ++ ", \"" ++ pyStr c.z ++ "\")", ?_, ?_⟩
  · conv_rhs => rw [String.append_assoc]
    rfl
  · have l1 : '\n' ∉ ("f(\"" : String).toList := by decide
    have l2 : '\n' ∉ ("\", " : String).toList := by decide
    have l3 : '\n' ∉ (", " : String).toList := by decide
    have l4 : '\n' ∉ (", \"" : String).toList := by decide
    have l5 : '\n' ∉ ("\")" : String).toList := by decide
    have hsn := no_newline_of_plainDecimal (plainDecimal_intDec s)
    have hxn := no_newline_of_plainDecimal hpx
    have hyn := no_newline_of_plainDecimal hpy
    simp [toList_append, List.mem_append, l1, l2, l3, l4, l5, hinst, hz, hsn, hxn,
      hyn]
    exact ⟨hinst, hsn, hxn, hyn, hz⟩

/-- Witness for C2: the sample configuration x = 2.5, y = 2, z = "opt1" on instance
`maxsat.cnf` with seed 7. -/
theorem request_line_format_witness :
    JuliaServer.cmdLine cfg0 "maxsat.cnf" 7 =
      "f(\"" ++ "maxsat.cnf" ++ "\", " ++ intDec 7 ++ ", " ++ pyStr cfg0.x ++ ", " ++
        pyStr cfg0.y ++ ", \"" ++ pyStr cfg0.z ++ "\")\n"
    ∧ plainDecimal (intDec 7) = true
    ∧ plainDecimal (pyStr cfg0.x) = true
    ∧ plainDecimal (pyStr cfg0.y) = true
    ∧ ∃ body, JuliaServer.cmdLine cfg0 "maxsat.cnf" 7 = body ++ "\n"
        ∧ '\n' ∉ body.toList :=
  request_line_format cfg0 "maxsat.cnf" 7 (by decide) (by decide) (by decide)
    (by decide)

/-- C9: the seed parameter of `julia_server.f` defaults to 0: a call with the seed
omitted is the very same call as one with seed 0, and the encoded request line then
carries `0` in the seed position. -/
theorem seed_defaults_to_zero (p : Proc) (c : Configuration) (i : String) :
    JuliaServer.f p c i = JuliaServer.f p c i 0
    ∧ JuliaServer.cmdLine c i 0 =
        "f(\"" ++ i ++ "\", " ++ "0" ++ ", " ++ pyStr c.x ++ ", " ++ pyStr c.y ++
          ", \"" ++ pyStr c.z ++ "\")\n" :=
  ⟨rfl, rfl⟩

/-- C8: `julia_server.f` is deterministic given (configuration, instance, seed): run
against the spec-modelled deterministic engine, its result equals a pure function of
the engine and these three arguments, so two calls with identical arguments return
identical floats.  The one nondeterministic evaluation function in the sources,
`tuning2.f` — whose result depends on a fresh `random.random()` draw — is registered
under a scenario declaring `deterministic=False`, as the claim's exemption requires,
while the julia-server demo scenario declares `deterministic=True`. -/
theorem f_deterministic_unless_declared (engine : String → String) (c : Configuration)
    (i : String) (s : Int) :
    JuliaServer.fAgainst engine c i s = JuliaServer.engineResult engine c i s
    ∧ Tuning2.scenario.deterministic = false
    ∧ SmacDemoServer.scenario.deterministic = true
    ∧ Tuning2.f 3 1 "myinst.txt" 0 0 ≠ Tuning2.f 3 1 "myinst.txt" 0 (1 / 2) := by
  refine ⟨?_, rfl, rfl, by norm_num [Tuning2.f]⟩
  rw [JuliaServer.fAgainst, f_open _ _ _ _ rfl]
  simp [JuliaServer.engineResult, JuliaServer.readyProc]

end JuliaServerModel
